import Mathlib

/-
Verification of the Polygon Hazard Sampling & Risk Consolidation Engine
(`climate_hazards_analysis_v2/granular_analysis.py`).

The Python module is shallowly embedded: numeric values are exact rationals
(`ℚ`), Python dicts carrying point data are association lists in insertion
order, and the external libraries at the module boundary (shapely, rasterio,
sklearn DBSCAN) are modelled by their documented semantics on those exact
values.  Fractional constants are written with `mkRat` so that concrete
evaluation stays kernel-reducible.
-/

/-- Helper: `mkRat n d` as ordinary division, for arithmetic reasoning. -/
theorem mkRat_eq_cast_div (n : ℤ) (d : ℕ) : (mkRat n d : ℚ) = (n : ℚ) / (d : ℚ) := by
  rw [Rat.mkRat_eq_divInt, Rat.divInt_eq_div]
  norm_num

/--
Embedding of `classify_hazard_risk(value, hazard_type)` (granular_analysis.py
lines 167-267).  `value = None` is `none`; the numeric branches use the exact
decimal thresholds of the source (`0.5 = mkRat 1 2` and so on).
-/
def classify_hazard_risk (value : Option ℚ) (hazard_type : String) : String :=
  match value with
  | none => "No Data"
  | some v =>
    if hazard_type = "Flood" then
      if v < mkRat 1 2 then "Low"
      else if v < mkRat 3 2 then "Medium"
      else if v < mkRat 5 2 then "High"
      else "Very High"
    else if hazard_type = "Heat" then
      if v < 10 then "Low"
      else if v < 45 then "Medium"
      else if v < 90 then "High"
      else "Very High"
    else if hazard_type = "Water Stress" then
      if v < 10 then "Low"
      else if v < 40 then "Medium"
      else if v < 80 then "High"
      else "Very High"
    else if hazard_type = "Sea Level Rise" then
      if v > 10 then "Low"
      else if v > 5 then "Medium"
      else if v > 2 then "High"
      else "Very High"
    else if hazard_type = "Storm Surge" then
      if v < mkRat 1 2 then "Low"
      else if v < mkRat 3 2 then "Medium"
      else if v < 3 then "High"
      else "Very High"
    else if hazard_type = "Landslide" then
      if v > mkRat 3 2 then "Low"
      else if v > mkRat 6 5 then "Medium"
      else if v > 1 then "High"
      else "Very High"
    else if hazard_type = "Tropical Cyclones" then
      if v < 60 then "Low"
      else if v < 120 then "Medium"
      else if v < 180 then "High"
      else "Very High"
    else
      if v < mkRat 3 10 then "Low"
      else if v < mkRat 3 5 then "Medium"
      else if v < mkRat 9 10 then "High"
      else "Very High"

/-- Threshold triples `(low, medium, high)` of the normal-scale hazards of
`classify_hazard_risk` (higher raw value means higher risk). -/
def normalScaleThresholds : List (String × ℚ × ℚ × ℚ) :=
  [("Flood", mkRat 1 2, mkRat 3 2, mkRat 5 2),
   ("Heat", 10, 45, 90),
   ("Water Stress", 10, 40, 80),
   ("Storm Surge", mkRat 1 2, mkRat 3 2, 3),
   ("Tropical Cyclones", 60, 120, 180)]

/-- Threshold triples `(low, medium, high)` of the reversed-scale hazards of
`classify_hazard_risk` (lower raw value means higher risk). -/
def reversedScaleThresholds : List (String × ℚ × ℚ × ℚ) :=
  [("Sea Level Rise", 10, 5, 2),
   ("Landslide", mkRat 3 2, mkRat 6 5, 1)]

/-- Sample point `{lng, lat}` as produced by `generate_sample_grid`. -/
structure SamplePoint where
  lng : ℚ
  lat : ℚ
deriving DecidableEq

/-- The allowed grid spacings of `generate_sample_grid` (line 40). -/
def valid_spacings : List ℚ := [10, 50, 100, 500, 1000]

/-- Spacing validation of `generate_sample_grid` (lines 41-43): an invalid
spacing is silently replaced by the 100 m default. -/
def validateSpacing (s : ℚ) : ℚ := if s ∈ valid_spacings then s else 100

/-- The flat-Earth conversion constant `degrees_per_meter = 1 / 111000`
(line 57). -/
def degreesPerMeter : ℚ := mkRat 1 111000

/-- Embedding of `np.arange(start, stop, step)` for a positive rational step:
the values `start + i * step` for `0 ≤ i < ⌈(stop - start) / step⌉`. -/
def arange (start stop step : ℚ) : List ℚ :=
  (List.range (⌈(stop - start) / step⌉).toNat).map
    (fun (i : ℕ) => start + (i : ℚ) * step)

/-- Bounding box `(minx, miny, maxx, maxy)` as returned by Shapely
`polygon.bounds`. -/
structure Bounds where
  minx : ℚ
  miny : ℚ
  maxx : ℚ
  maxy : ℚ
deriving DecidableEq

/-- All vertices of a polygon.  A polygon is its list of rings (exterior
ring first, then holes), each ring an ordered list of `(x, y) = (lng, lat)`
vertices; Shapely closes each ring implicitly. -/
def polyVertices (poly : List (List (ℚ × ℚ))) : List (ℚ × ℚ) := poly.flatten

/-- Envelope of all vertices, modelling Shapely `polygon.bounds` (line 52). -/
def polyBounds (poly : List (List (ℚ × ℚ))) : Bounds :=
  match polyVertices poly with
  | [] => ⟨0, 0, 0, 0⟩
  | v :: vs =>
    vs.foldl
      (fun b w => ⟨min b.minx w.1, min b.miny w.2, max b.maxx w.1, max b.maxy w.2⟩)
      ⟨v.1, v.2, v.1, v.2⟩

/-- The closed edge cycle of one ring. -/
def ringEdges (ring : List (ℚ × ℚ)) : List ((ℚ × ℚ) × (ℚ × ℚ)) :=
  ring.zip (ring.rotate 1)

/-- All edges of all rings of a polygon. -/
def polyEdges (poly : List (List (ℚ × ℚ))) : List ((ℚ × ℚ) × (ℚ × ℚ)) :=
  poly.flatMap ringEdges

/-- Exact test that point `p` lies on the closed segment `e`. -/
def onSegment (e : (ℚ × ℚ) × (ℚ × ℚ)) (p : ℚ × ℚ) : Bool :=
  decide ((e.2.1 - e.1.1) * (p.2 - e.1.2) = (e.2.2 - e.1.2) * (p.1 - e.1.1)) &&
    decide (min e.1.1 e.2.1 ≤ p.1) && decide (p.1 ≤ max e.1.1 e.2.1) &&
    decide (min e.1.2 e.2.2 ≤ p.2) && decide (p.2 ≤ max e.1.2 e.2.2)

/-- Point on the boundary of the polygon (any edge of any ring). -/
def onPolyBoundary (poly : List (List (ℚ × ℚ))) (p : ℚ × ℚ) : Bool :=
  (polyEdges poly).any (fun e => onSegment e p)

/-- One step of the even-odd ray-crossing rule: whether edge `e` crosses the
horizontal ray going right from `p`. -/
def edgeCrossesRay (e : (ℚ × ℚ) × (ℚ × ℚ)) (p : ℚ × ℚ) : Bool :=
  (decide (p.2 < e.1.2) != decide (p.2 < e.2.2)) &&
    decide (p.1 < e.1.1 + (e.2.1 - e.1.1) * (p.2 - e.1.2) / (e.2.2 - e.1.2))

/-- Model of Shapely `polygon.contains(Point(x, y))` (line 72): true exactly
when the point lies in the polygon's interior — even-odd ray crossing over
all rings, with boundary points excluded (Shapely `contains` is
boundary-exclusive; `covers` would be the boundary-inclusive predicate). -/
def polyContains (poly : List (List (ℚ × ℚ))) (p : ℚ × ℚ) : Bool :=
  !onPolyBoundary poly p &&
    decide ((polyEdges poly).countP (fun e => edgeCrossesRay e p) % 2 = 1)

/-- The `x_coords` ladder of `generate_sample_grid` (line 61). -/
def gridXCoords (poly : List (List (ℚ × ℚ))) (s : ℚ) : List ℚ :=
  arange (polyBounds poly).minx (polyBounds poly).maxx
    (validateSpacing s * degreesPerMeter)

/-- The `y_coords` ladder of `generate_sample_grid` (line 62). -/
def gridYCoords (poly : List (List (ℚ × ℚ))) (s : ℚ) : List ℚ :=
  arange (polyBounds poly).miny (polyBounds poly).maxy
    (validateSpacing s * degreesPerMeter)

/-- Embedding of `generate_sample_grid(polygon_geometry, grid_spacing_meters)`
(lines 18-84): the Cartesian product of the two coordinate ladders filtered
by the Shapely containment test, in ascending x-major order. -/
def generate_sample_grid (polygon_geometry : List (List (ℚ × ℚ)))
    (grid_spacing_meters : ℚ) : List SamplePoint :=
  (gridXCoords polygon_geometry grid_spacing_meters).flatMap fun x =>
    (gridYCoords polygon_geometry grid_spacing_meters).filterMap fun y =>
      if polyContains polygon_geometry (x, y) then some ⟨x, y⟩ else none

/-- A concrete square polygon with side `1/555` degrees, two 100 m grid
steps long. -/
def smallSquare : List (List (ℚ × ℚ)) :=
  [[(0, 0), (mkRat 1 555, 0), (mkRat 1 555, mkRat 1 555), (0, mkRat 1 555)]]

/-- Raw value read from one raster band at one point: either a number or a
floating NaN. -/
inductive RawSample where
  | val : ℚ → RawSample
  | nan : RawSample
deriving DecidableEq

/-- Hazard Query Result `{lat, lng, value, hazard}` (lines 143-148);
`value = none` is the JSON `null`. -/
structure HazardQueryResult where
  lat : ℚ
  lng : ℚ
  value : Option ℚ
  hazard : String
deriving DecidableEq

/-- Per-point result assembly of `query_hazard_for_points` (lines 135-157).
The per-point `try` block is modelled by an `Except`: `Except.error` is an
exception thrown while processing that point (caught, yielding a null
value), and a missing entry (`none`, the case `i ≥ len(sampled_values)`) is
the caught IndexError.  A numeric read equal to the declared no-data
sentinel, or a NaN read (`np.isnan`), is normalized to a null value. -/
def processSample (nodata : Option ℚ) (hazard : String) (pt : SamplePoint)
    (oc : Option (Except Unit RawSample)) : HazardQueryResult :=
  match oc with
  | some (Except.ok (RawSample.val q)) =>
    if nodata = some q then ⟨pt.lat, pt.lng, none, hazard⟩
    else ⟨pt.lat, pt.lng, some q, hazard⟩
  | some (Except.ok RawSample.nan) => ⟨pt.lat, pt.lng, none, hazard⟩
  | some (Except.error _) => ⟨pt.lat, pt.lng, none, hazard⟩
  | none => ⟨pt.lat, pt.lng, none, hazard⟩

/-- Embedding of `query_hazard_for_points(sample_points, raster, name)`
(lines 87-164) for an existing raster.  The rasterio boundary is modelled by
the batch read `sampled`: the list of per-point outcomes produced by
`sample_gen`, aligned with the points by position, together with the
raster's declared no-data sentinel `nodata` (`src.nodata`, `none` when the
raster declares no sentinel). -/
def query_hazard_for_points : List SamplePoint → List (Except Unit RawSample) →
    Option ℚ → String → List HazardQueryResult
  | [], _, _, _ => []
  | pt :: pts, ocs, nodata, hz =>
    processSample nodata hz pt ocs.head? ::
      query_hazard_for_points pts ocs.tail nodata hz

/-- Value stored in one field of an analyzed-point dict: a number, a string,
or Python `None`. -/
inductive FVal where
  | num : ℚ → FVal
  | str : String → FVal
  | null : FVal
deriving DecidableEq

/-- An analyzed-point record is a Python dict in insertion order: an
association list from field name to field value. -/
abbrev PointRec := List (String × FVal)

/-- Dict read `point[k]` (first binding wins, as in a Python dict, whose keys
are unique). -/
def getF : PointRec → String → Option FVal
  | [], _ => none
  | (k2, w) :: rest, k => if k2 = k then some w else getF rest k

/-- Dict write `point[k] = v`: updates an existing binding in place, else
appends the new binding at the end, as a Python dict does. -/
def setF : PointRec → String → FVal → PointRec
  | [], k, v => [(k, v)]
  | (k2, w) :: rest, k, v =>
    if k2 = k then (k2, v) :: rest else (k2, w) :: setF rest k v

/-- Model of Python `s.endswith(suffix)` on exact character lists. -/
def strEndsWith (s suffix : String) : Bool :=
  suffix.data.isSuffixOf s.data

/-- Code-point comparison of character lists, modelling Python string
ordering. -/
def charListLe : List Char → List Char → Bool
  | [], _ => true
  | _ :: _, [] => false
  | a :: as, b :: bs => if a < b then true else if b < a then false else charListLe as bs

/-- Python `<=` on strings. -/
def strLe (a b : String) : Bool := charListLe a.data b.data

/-- Insertion step of the string sort. -/
def insertSorted (s : String) : List String → List String
  | [] => [s]
  | t :: ts => if strLe s t then s :: t :: ts else t :: insertSorted s ts

/-- Model of Python `sorted` on a list of strings. -/
def sortStrings (keys : List String) : List String := keys.foldr insertSorted []

/-- The `*_risk` bindings of a point, in key-insertion order (line 301). -/
def riskPairs (p : PointRec) : List (String × FVal) :=
  p.filter (fun kv => strEndsWith kv.1 "_risk")

/-- The `*_risk` field names of a point (line 301). -/
def riskKeys (p : PointRec) : List String := (riskPairs p).map Prod.fst

/-- Python `str(value)` for the field values that occur in a risk profile
(risk tiers are strings; `str(None)` is `"None"`; the numeric case is an
idealized rendering, never reached by the pipeline, whose risk fields are
strings). -/
def fvalText : FVal → String
  | FVal.str s => s
  | FVal.num q => toString q.num
  | FVal.null => "None"

/-- The Risk Profile string of one point (line 302):
`'|'.join(f"{k}:{point[k]}" for k in sorted(risk_keys))`. -/
def profileOf (p : PointRec) : String :=
  String.intercalate "|"
    ((sortStrings (riskKeys p)).map
      (fun k => k ++ ":" ++ fvalText ((getF p k).getD FVal.null)))

/-- Step 1 of `consolidate_points_to_clusters` (lines 299-303): the in-place
loop `point['risk_profile'] = profile` over the caller's records.  The
returned list is the post-call state of the very same input records (Python
mutates the dicts held by the caller). -/
def assignProfiles (pts : List PointRec) : List PointRec :=
  pts.map (fun p => setF p "risk_profile" (FVal.str (profileOf p)))

/-- Read `point['risk_profile']` as the grouping key (lines 308, always set
by step 1, always a string). -/
def profileKey (p : PointRec) : String :=
  match getF p "risk_profile" with
  | some (FVal.str s) => s
  | _ => ""

/-- One step of step 2's grouping dict (lines 306-311): append point `p` to
the group of key `prof`, creating the group at the end on first sight, as a
Python dict preserves insertion order. -/
def addToGroup : List (String × List PointRec) → String → PointRec →
    List (String × List PointRec)
  | [], prof, p => [(prof, [p])]
  | (k, ps) :: rest, prof, p =>
    if k = prof then (k, ps ++ [p]) :: rest
    else (k, ps) :: addToGroup rest prof p

/-- Step 2 of `consolidate_points_to_clusters` (lines 306-311): partition the
points by identical risk profile, groups in discovery order. -/
def groupByProfile (pts : List PointRec) : List (String × List PointRec) :=
  pts.foldl (fun gs p => addToGroup gs (profileKey p) p) []

/-- Numeric read of a coordinate field. -/
def getNum (p : PointRec) (k : String) : Option ℚ :=
  match getF p k with
  | some (FVal.num q) => some q
  | _ => none

/-- `p['lat']` as a number (guarded by `coordsOk` on every path that uses
it). -/
def latOf (p : PointRec) : ℚ := (getNum p "lat").getD 0

/-- `p['lng']` as a number (guarded by `coordsOk` on every path that uses
it). -/
def lngOf (p : PointRec) : ℚ := (getNum p "lng").getD 0

/-- Whether every point has numeric `lat` and `lng` fields: step 3 reads
`p['lat']`, `p['lng']` of every point into the DBSCAN coordinate array
(line 325), and a missing or non-numeric coordinate raises there, sending the
whole call to the `except` path. -/
def coordsOk (pts : List PointRec) : Bool :=
  pts.all (fun p => (getNum p "lat").isSome && (getNum p "lng").isSome)

/-- DBSCAN neighborhood test: Euclidean distance between the `[lat, lng]`
rows at most `eps`, written on squares to stay in exact arithmetic. -/
def dbscanAdj (eps : ℚ) (p q : PointRec) : Bool :=
  decide ((latOf p - latOf q) ^ 2 + (lngOf p - lngOf q) ^ 2 ≤ eps ^ 2)

/-- BFS step of the connected-component computation: absorb into `comp` all
points of `rest` adjacent to some member of `comp`, until a fixpoint; the
fuel dominates the number of rounds. -/
def grow {α : Type} (adj : α → α → Bool) : ℕ → List α → List α → List α × List α
  | 0, comp, rest => (comp, rest)
  | Nat.succ fuel, comp, rest =>
    if (rest.filter (fun q => comp.any (fun c => adj c q))).isEmpty then
      (comp, rest)
    else
      grow adj fuel (comp ++ rest.filter (fun q => comp.any (fun c => adj c q)))
        (rest.filter (fun q => !comp.any (fun c => adj c q)))

/-- Connected components of the adjacency graph, fuelled by the list
length. -/
def componentsAux {α : Type} (adj : α → α → Bool) : ℕ → List α → List (List α)
  | 0, _ => []
  | Nat.succ _, [] => []
  | Nat.succ fuel, p :: rest =>
    (grow adj rest.length [p] rest).1 ::
      componentsAux adj fuel (grow adj rest.length [p] rest).2

/-- Model of sklearn `DBSCAN(eps, min_samples=1).fit` label groups
(lines 342-347): with `min_samples = 1` every point is a core point, so the
clusters are exactly the connected components of the mutual-distance-`≤ eps`
graph (standard density-reachability semantics with no noise). -/
def components {α : Type} (adj : α → α → Bool) (l : List α) : List (List α) :=
  componentsAux adj l.length l

/-- One consolidated cluster (lines 329-338 and 353-362);
`representative_point` is split into its two coordinates. -/
structure Cluster where
  cluster_id : ℕ
  representative_lat : ℚ
  representative_lng : ℚ
  risk_profile : String
  point_count : ℕ
  all_points : List PointRec
deriving DecidableEq

/-- `np.mean` of a list of exact rationals. -/
def meanQ (l : List ℚ) : ℚ := l.sum / (l.length : ℚ)

/-- Step 3 of `consolidate_points_to_clusters` for one profile group
(lines 323-363): a single point is its own cluster with itself as
representative; a larger group is DBSCAN-clustered and each label set
becomes a cluster with the centroid as representative.  `cluster_id` is
filled in afterwards by `withIds`. -/
def clusterGroup (eps : ℚ) (prof : String) (ps : List PointRec) : List Cluster :=
  if ps.length = 1 then
    [{ cluster_id := 0,
       representative_lat := latOf (ps.headD []),
       representative_lng := lngOf (ps.headD []),
       risk_profile := prof,
       point_count := 1,
       all_points := ps }]
  else
    (components (dbscanAdj eps) ps).map fun cps =>
      { cluster_id := 0,
        representative_lat := meanQ (cps.map latOf),
        representative_lng := meanQ (cps.map lngOf),
        risk_profile := prof,
        point_count := cps.length,
        all_points := cps }

/-- The running `cluster_id` counter (lines 317, 339, 363): clusters are
numbered consecutively in generation order. -/
def withIds : ℕ → List Cluster → List Cluster
  | _, [] => []
  | n, c :: cs => { c with cluster_id := n } :: withIds (n + 1) cs

/-- The DBSCAN epsilon (lines 320-321): twice the grid spacing, converted to
degrees. -/
def consolidationEps (grid_spacing_meters : ℚ) : ℚ :=
  grid_spacing_meters * 2 * degreesPerMeter

/-- Steps 2-3 assembled: all clusters of one analysis run, over the
profile-assigned points. -/
def clustersOf (pts1 : List PointRec) (s : ℚ) : List Cluster :=
  withIds 0
    ((groupByProfile pts1).flatMap fun g => clusterGroup (consolidationEps s) g.1 g.2)

/-- One `risk_distribution` entry (lines 379-382). -/
structure DistEntry where
  count : ℕ
  percentage : ℚ
deriving DecidableEq

/-- The `statistics` dict of a Consolidation Result (lines 386-390). -/
structure Statistics where
  total_points : ℕ
  cluster_count : ℕ
  risk_distribution : List (String × DistEntry)
deriving DecidableEq

/-- A Consolidation Result; `statistics = none` is the empty statistics dict
`{}` of the failure and empty-input paths (lines 296, 395). -/
structure ConsolidationResult where
  clusters : List Cluster
  statistics : Option Statistics
deriving DecidableEq

/-- Python `round` to the nearest integer, ties to even. -/
def roundHalfEven (q : ℚ) : ℤ :=
  if q - ⌊q⌋ < mkRat 1 2 then ⌊q⌋
  else if mkRat 1 2 < q - ⌊q⌋ then ⌊q⌋ + 1
  else if ⌊q⌋ % 2 = 0 then ⌊q⌋ else ⌊q⌋ + 1

/-- Python `round(x, 1)` on the exact rational value (CPython applies
banker's rounding to the binary-float representation; the embedding rounds
the exact value). -/
def pyRound1 (q : ℚ) : ℚ := (roundHalfEven (q * 10) : ℚ) / 10

/-- `next((k for k in point.keys() if k.endswith('_risk')), None)`
(line 371). -/
def firstRiskKey (p : PointRec) : Option String :=
  (p.find? (fun kv => strEndsWith kv.1 "_risk")).map Prod.fst

/-- The list `[p[first_risk_key] for p in analyzed_points]` (line 375);
`getD FVal.null` is unreachable on the success path, which checks that every
point has the key. -/
def riskValues (pts1 : List PointRec) (k : String) : List FVal :=
  pts1.map (fun p => (getF p k).getD FVal.null)

/-- The four tier names the distribution loop iterates over (line 376). -/
def distLevels : List String := ["Low", "Medium", "High", "Very High"]

/-- Step 4's `risk_distribution` (lines 373-382): for each of the four
ordinal tiers, the `Counter` count of that tier among the first-hazard
values, and its percentage of `total_points` rounded to one decimal. -/
def buildDistribution (values : List FVal) (total : ℕ) : List (String × DistEntry) :=
  distLevels.map fun level =>
    (level,
      { count := values.count (FVal.str level),
        percentage :=
          pyRound1
            (if 0 < total then (values.count (FVal.str level) : ℚ) / (total : ℚ) * 100
             else 0) })

/-- Dict lookup in a `risk_distribution`. -/
def distLookup (key : String) (d : List (String × DistEntry)) : Option DistEntry :=
  (d.find? (fun e => e.1 = key)).map Prod.snd

/-- Whether the non-empty-input run completes without an exception: every
point must expose numeric `lat`/`lng` coordinates to step 3 (line 325), and,
when the first point has a `*_risk` key, every point must have that key,
else the comprehension `[p[first_risk_key] for p in analyzed_points]`
(line 375) raises KeyError and the whole call lands in the `except` path. -/
def consolidateSuccess (pts1 : List PointRec) : Bool :=
  coordsOk pts1 &&
    (match firstRiskKey (pts1.headD []) with
     | none => true
     | some k => pts1.all fun p => (getF p k).isSome)

/-- The `statistics` dict of a successful run (lines 367-390). -/
def consolidateStats (pts1 : List PointRec) (clusters : List Cluster) : Statistics :=
  { total_points := pts1.length,
    cluster_count := clusters.length,
    risk_distribution :=
      match firstRiskKey (pts1.headD []) with
      | none => []
      | some k => buildDistribution (riskValues pts1 k) pts1.length }

/-- Embedding of `consolidate_points_to_clusters(analyzed_points, spacing)`
(lines 270-395).  Empty input and the two exception sources (non-numeric
coordinates at line 325, a missing first-hazard key at line 375) produce the
empty result `{'clusters': [], 'statistics': {}}`; otherwise the points are
profile-assigned in place, grouped by profile, spatially clustered per
group, and summarized. -/
def consolidate_points_to_clusters (analyzed_points : List PointRec)
    (grid_spacing_meters : ℚ) : ConsolidationResult :=
  if analyzed_points.isEmpty then { clusters := [], statistics := none }
  else if consolidateSuccess (assignProfiles analyzed_points) then
    { clusters := clustersOf (assignProfiles analyzed_points) grid_spacing_meters,
      statistics :=
        some (consolidateStats (assignProfiles analyzed_points)
          (clustersOf (assignProfiles analyzed_points) grid_spacing_meters)) }
  else { clusters := [], statistics := none }

/-- Concrete input showing the in-place profile assignment. -/
def mutationExample : List PointRec :=
  [[("lat", FVal.num 0), ("lng", FVal.num 0), ("flood_risk", FVal.str "Low")]]

/-- Projection of a cluster onto its id-independent data. -/
def clusterData (c : Cluster) : ℕ × ℚ × ℚ × List PointRec :=
  (c.point_count, c.representative_lat, c.representative_lng, c.all_points)

/-- Concrete one-point input whose only fields are the coordinates. -/
def plainExample : List PointRec := [[("lat", FVal.num 0), ("lng", FVal.num 0)]]

/-- Concrete one-point input with one risk field. -/
def singletonExample : List PointRec :=
  [[("lat", FVal.num 0), ("lng", FVal.num 0), ("heat_risk", FVal.str "High")]]

/-- Concrete one-point input whose first hazard tier is `No Data`. -/
def noDataExample : List PointRec :=
  [[("lat", FVal.num 0), ("lng", FVal.num 0),
    ("flood_risk", FVal.str "No Data")]]

/-- Concrete one-point input whose first hazard tier is `Low`. -/
def lowRiskExample : List PointRec :=
  [[("lat", FVal.num 0), ("lng", FVal.num 0), ("flood_risk", FVal.str "Low")]]

/-- Helper: tier selection of a normal-scale strict `<` threshold chain. -/
theorem normal_chain_spec (v a b c : ℚ) (hab : a ≤ b) (hbc : b ≤ c) :
    (v < a →
      (if v < a then "Low" else if v < b then "Medium"
        else if v < c then "High" else ("Very High" : String)) = "Low") ∧
    (a ≤ v → v < b →
      (if v < a then "Low" else if v < b then "Medium"
        else if v < c then "High" else ("Very High" : String)) = "Medium") ∧
    (b ≤ v → v < c →
      (if v < a then "Low" else if v < b then "Medium"
        else if v < c then "High" else ("Very High" : String)) = "High") ∧
    (c ≤ v →
      (if v < a then "Low" else if v < b then "Medium"
        else if v < c then "High" else ("Very High" : String)) = "Very High") := by
  refine ⟨fun h1 => if_pos h1, fun h1 h2 => ?_, fun h1 h2 => ?_, fun h1 => ?_⟩
  · rw [if_neg (not_lt.2 h1), if_pos h2]
  · rw [if_neg (not_lt.2 (le_trans hab h1)), if_neg (not_lt.2 h1), if_pos h2]
  · rw [if_neg (not_lt.2 (le_trans (le_trans hab hbc) h1)),
      if_neg (not_lt.2 (le_trans hbc h1)), if_neg (not_lt.2 h1)]

/-- Helper: tier selection of a reversed-scale strict `>` threshold chain. -/
theorem reversed_chain_spec (v a b c : ℚ) (hcb : c ≤ b) (hba : b ≤ a) :
    (v ≤ c →
      (if v > a then "Low" else if v > b then "Medium"
        else if v > c then "High" else ("Very High" : String)) = "Very High") ∧
    (c < v → v ≤ b →
      (if v > a then "Low" else if v > b then "Medium"
        else if v > c then "High" else ("Very High" : String)) = "High") ∧
    (b < v → v ≤ a →
      (if v > a then "Low" else if v > b then "Medium"
        else if v > c then "High" else ("Very High" : String)) = "Medium") ∧
    (a < v →
      (if v > a then "Low" else if v > b then "Medium"
        else if v > c then "High" else ("Very High" : String)) = "Low") := by
  refine ⟨fun h1 => ?_, fun h1 h2 => ?_, fun h1 h2 => ?_, fun h1 => if_pos h1⟩
  · rw [if_neg (not_lt.2 (le_trans (le_trans h1 hcb) hba)),
      if_neg (not_lt.2 (le_trans h1 hcb)), if_neg (not_lt.2 h1)]
  · rw [if_neg (not_lt.2 (le_trans h2 hba)), if_neg (not_lt.2 h2), if_pos h1]
  · rw [if_neg (not_lt.2 h2), if_pos h1]

/-- C3 counterexample: the claim puts `value = low` in the Low tier
(`value ≤ low → Low`), but at the Flood low threshold `0.5` the code returns
Medium, because its comparisons are strict (`value < 0.5 → Low`). -/
theorem classify_flood_at_low_threshold_not_low :
    classify_hazard_risk (some (mkRat 1 2)) "Flood" = "Medium" ∧
      classify_hazard_risk (some (mkRat 1 2)) "Flood" ≠ "Low" := by
  decide

/-- C3 (amended): for every normal-scale hazard with threshold triple
`(low, medium, high)`, the classifier uses half-open intervals with strict
lower comparisons: `value < low → Low`, `low ≤ value < medium → Medium`,
`medium ≤ value < high → High`, `value ≥ high → Very High`. -/
theorem classify_normal_scale_boundaries (hz : String) (lo mid hi : ℚ)
    (hmem : (hz, lo, mid, hi) ∈ normalScaleThresholds) (v : ℚ) :
    (v < lo → classify_hazard_risk (some v) hz = "Low") ∧
    (lo ≤ v → v < mid → classify_hazard_risk (some v) hz = "Medium") ∧
    (mid ≤ v → v < hi → classify_hazard_risk (some v) hz = "High") ∧
    (hi ≤ v → classify_hazard_risk (some v) hz = "Very High") := by
  simp only [normalScaleThresholds, List.mem_cons, List.not_mem_nil, or_false] at hmem
  rcases hmem with h | h | h | h | h <;>
    (simp only [Prod.mk.injEq] at h; obtain ⟨rfl, rfl, rfl, rfl⟩ := h) <;>
    exact normal_chain_spec v _ _ _ (by norm_num [mkRat_eq_cast_div])
      (by norm_num [mkRat_eq_cast_div])

/-- C3 witness: instantiating the amended normal-scale rule at Flood with
value 1 (inside `[low, medium)`) yields Medium. -/
theorem classify_normal_scale_boundaries_witness :
    classify_hazard_risk (some 1) "Flood" = "Medium" :=
  (classify_normal_scale_boundaries "Flood" (mkRat 1 2) (mkRat 3 2) (mkRat 5 2)
      (by decide) 1).2.1 (by decide) (by decide)

/-- C4 counterexample: the claim puts `value = medium` in the Medium tier
(`medium ≤ value < low → Medium`), but at the Landslide medium threshold
`1.2` the code returns High, because its comparisons are strict
(`value > 1.2 → Medium`). -/
theorem classify_landslide_at_medium_threshold_not_medium :
    classify_hazard_risk (some (mkRat 6 5)) "Landslide" = "High" ∧
      classify_hazard_risk (some (mkRat 6 5)) "Landslide" ≠ "Medium" := by
  decide

/-- C4 (amended): for every reversed-scale hazard with threshold triple
`(low, medium, high)`, the classifier uses half-open intervals with strict
upper comparisons: `value ≤ high → Very High`, `high < value ≤ medium → High`,
`medium < value ≤ low → Medium`, `value > low → Low`. -/
theorem classify_reversed_scale_boundaries (hz : String) (lo mid hi : ℚ)
    (hmem : (hz, lo, mid, hi) ∈ reversedScaleThresholds) (v : ℚ) :
    (v ≤ hi → classify_hazard_risk (some v) hz = "Very High") ∧
    (hi < v → v ≤ mid → classify_hazard_risk (some v) hz = "High") ∧
    (mid < v → v ≤ lo → classify_hazard_risk (some v) hz = "Medium") ∧
    (lo < v → classify_hazard_risk (some v) hz = "Low") := by
  simp only [reversedScaleThresholds, List.mem_cons, List.not_mem_nil, or_false] at hmem
  rcases hmem with h | h <;>
    (simp only [Prod.mk.injEq] at h; obtain ⟨rfl, rfl, rfl, rfl⟩ := h) <;>
    exact reversed_chain_spec v _ _ _ (by norm_num [mkRat_eq_cast_div])
      (by norm_num [mkRat_eq_cast_div])

/-- C4 witness: instantiating the amended reversed-scale rule at Landslide
with value `1.1` (inside `(high, medium]`) yields High. -/
theorem classify_reversed_scale_boundaries_witness :
    classify_hazard_risk (some (mkRat 11 10)) "Landslide" = "High" :=
  (classify_reversed_scale_boundaries "Landslide" (mkRat 3 2) (mkRat 6 5) 1
      (by decide) (mkRat 11 10)).2.1 (by decide) (by decide)

set_option maxHeartbeats 1600000 in
/-- C5: `classify_hazard_risk` returns `No Data` exactly on a null value:
`none` gives `No Data` for every hazard string, and any non-null value gives
one of the four ordinal tiers (hence never `No Data`) for every hazard
string, including unrecognized names; the Lean embedding is total, matching
the fact that the Python function never raises. -/
theorem classify_no_data_iff_null (hz : String) (v : ℚ) :
    classify_hazard_risk none hz = "No Data" ∧
    classify_hazard_risk (some v) hz ≠ "No Data" ∧
    classify_hazard_risk (some v) hz ∈ (["Low", "Medium", "High", "Very High"] : List String) := by
  refine ⟨rfl, ?_, ?_⟩ <;>
    · dsimp only [classify_hazard_risk]
      split_ifs <;> decide

/-- Helper: membership in the generated grid is exactly membership of both
coordinates in the ladders together with the strict-interior containment
test. -/
theorem mem_generate_sample_grid (poly : List (List (ℚ × ℚ))) (s : ℚ)
    (sp : SamplePoint) :
    sp ∈ generate_sample_grid poly s ↔
      sp.lng ∈ gridXCoords poly s ∧ sp.lat ∈ gridYCoords poly s ∧
        polyContains poly (sp.lng, sp.lat) = true := by
  unfold generate_sample_grid
  rw [List.mem_flatMap]
  constructor
  · rintro ⟨x, hx, hsp⟩
    rw [List.mem_filterMap] at hsp
    obtain ⟨y, hy, hxy⟩ := hsp
    by_cases hc : polyContains poly (x, y) = true
    · rw [if_pos hc] at hxy
      obtain rfl := Option.some.inj hxy
      exact ⟨hx, hy, hc⟩
    · rw [if_neg hc] at hxy
      exact absurd hxy (by simp)
  · rintro ⟨hx, hy, hc⟩
    refine ⟨sp.lng, hx, List.mem_filterMap.2 ⟨sp.lat, hy, ?_⟩⟩
    rw [if_pos hc]

/-- C2 (amended): `generate_sample_grid` keeps a ladder point if and only if
it lies strictly inside the polygon: every returned point lies in the
interior of `P`, and every `(x, y)` combination of the two ladders in the
interior of `P` is returned; boundary points are excluded, because Shapely
`contains` is boundary-exclusive. -/
theorem generate_sample_grid_keeps_iff_interior (poly : List (List (ℚ × ℚ)))
    (s : ℚ) (sp : SamplePoint) :
    sp ∈ generate_sample_grid poly s ↔
      sp.lng ∈ gridXCoords poly s ∧ sp.lat ∈ gridYCoords poly s ∧
        polyContains poly (sp.lng, sp.lat) = true :=
  mem_generate_sample_grid poly s sp

/-- Helper: a positive-length `arange` contains its start value. -/
theorem arange_mem_start (start stop step : ℚ) (h1 : start < stop)
    (h2 : 0 < step) : start ∈ arange start stop step := by
  unfold arange
  have hpos : 0 < (stop - start) / step := div_pos (by linarith) h2
  have hceil : (0 : ℤ) < ⌈(stop - start) / step⌉ := Int.ceil_pos.2 hpos
  have hn : 0 < (⌈(stop - start) / step⌉).toNat := by omega
  have hmem := List.mem_map_of_mem (fun i : ℕ => start + (i : ℚ) * step)
    (List.mem_range.2 hn)
  simpa using hmem

/-- C2 counterexample: with 100 m spacing on `smallSquare`, the ladder
combination `(0, 0)` lies on the polygon's boundary — hence inside or on the
boundary, which the claim says must be returned — yet `generate_sample_grid`
does not return it, because Shapely `contains` excludes boundary points. -/
theorem grid_boundary_point_excluded :
    (0 : ℚ) ∈ gridXCoords smallSquare 100 ∧
    (0 : ℚ) ∈ gridYCoords smallSquare 100 ∧
    onPolyBoundary smallSquare (0, 0) = true ∧
    (⟨0, 0⟩ : SamplePoint) ∉ generate_sample_grid smallSquare 100 := by
  have hbnds : polyBounds smallSquare = ⟨0, 0, mkRat 1 555, mkRat 1 555⟩ := by
    norm_num [polyBounds, polyVertices, smallSquare, mkRat_eq_cast_div,
      min_def, max_def, Bounds.mk.injEq]
  have hstep : validateSpacing 100 * degreesPerMeter = mkRat 1 1110 := by
    rw [validateSpacing, if_pos (by decide)]
    norm_num [degreesPerMeter, mkRat_eq_cast_div]
  have hx : (0 : ℚ) ∈ gridXCoords smallSquare 100 := by
    rw [gridXCoords, hbnds, hstep]
    exact arange_mem_start 0 (mkRat 1 555) (mkRat 1 1110)
      (by norm_num [mkRat_eq_cast_div]) (by norm_num [mkRat_eq_cast_div])
  have hy : (0 : ℚ) ∈ gridYCoords smallSquare 100 := by
    rw [gridYCoords, hbnds, hstep]
    exact arange_mem_start 0 (mkRat 1 555) (mkRat 1 1110)
      (by norm_num [mkRat_eq_cast_div]) (by norm_num [mkRat_eq_cast_div])
  have hb : onPolyBoundary smallSquare (0, 0) = true := by
    norm_num [onPolyBoundary, polyEdges, ringEdges, smallSquare, List.rotate,
      onSegment, mkRat_eq_cast_div, min_def, max_def]
  refine ⟨hx, hy, hb, ?_⟩
  rw [mem_generate_sample_grid]
  rintro ⟨-, -, hc⟩
  rw [polyContains, hb] at hc
  simp at hc

/-- C9: calling `generate_sample_grid` with a spacing outside the allowed
set `{10, 50, 100, 500, 1000}` produces exactly the same ordered point
sequence as calling it with the default spacing 100: the invalid value is
corrected, not rejected. -/
theorem generate_sample_grid_invalid_spacing_default
    (poly : List (List (ℚ × ℚ))) (s : ℚ) (hs : s ∉ valid_spacings) :
    generate_sample_grid poly s = generate_sample_grid poly 100 := by
  have h1 : validateSpacing s = 100 := if_neg hs
  have h2 : validateSpacing 100 = 100 := if_pos (by decide)
  unfold generate_sample_grid gridXCoords gridYCoords
  rw [h1, h2]

/-- C9 witness: on the concrete `smallSquare` polygon, spacing 37 yields the
same grid as spacing 100. -/
theorem generate_sample_grid_invalid_spacing_default_witness :
    generate_sample_grid smallSquare 37 = generate_sample_grid smallSquare 100 :=
  generate_sample_grid_invalid_spacing_default smallSquare 37 (by decide)

/-- Helper: tail indexing shift. -/
theorem tail_getElem_opt {α : Type} (l : List α) (i : ℕ) :
    l.tail[i]? = l[i + 1]? := by
  cases l <;> simp

/-- Helper: one processed sample always keeps the point's latitude. -/
theorem processSample_lat (nodata : Option ℚ) (hz : String) (pt : SamplePoint)
    (oc : Option (Except Unit RawSample)) :
    (processSample nodata hz pt oc).lat = pt.lat := by
  match oc with
  | none => rfl
  | some (Except.error u) => rfl
  | some (Except.ok RawSample.nan) => rfl
  | some (Except.ok (RawSample.val x)) =>
    dsimp only [processSample]
    split <;> rfl

/-- Helper: one processed sample always keeps the point's longitude. -/
theorem processSample_lng (nodata : Option ℚ) (hz : String) (pt : SamplePoint)
    (oc : Option (Except Unit RawSample)) :
    (processSample nodata hz pt oc).lng = pt.lng := by
  match oc with
  | none => rfl
  | some (Except.error u) => rfl
  | some (Except.ok RawSample.nan) => rfl
  | some (Except.ok (RawSample.val x)) =>
    dsimp only [processSample]
    split <;> rfl

/-- Helper: one processed sample always carries the hazard name. -/
theorem processSample_hazard (nodata : Option ℚ) (hz : String)
    (pt : SamplePoint) (oc : Option (Except Unit RawSample)) :
    (processSample nodata hz pt oc).hazard = hz := by
  match oc with
  | none => rfl
  | some (Except.error u) => rfl
  | some (Except.ok RawSample.nan) => rfl
  | some (Except.ok (RawSample.val x)) =>
    dsimp only [processSample]
    split <;> rfl

/-- Helper: the null/non-null characterization of one processed sample. -/
theorem processSample_value (nodata : Option ℚ) (hz : String)
    (pt : SamplePoint) (oc : Option (Except Unit RawSample)) (q : ℚ) :
    (processSample nodata hz pt oc).value = some q ↔
      oc = some (Except.ok (RawSample.val q)) ∧ nodata ≠ some q := by
  match oc with
  | none => simp [processSample]
  | some (Except.error u) => simp [processSample]
  | some (Except.ok RawSample.nan) => simp [processSample]
  | some (Except.ok (RawSample.val x)) =>
    by_cases hnd : nodata = some x
    · simp only [processSample, if_pos hnd]
      constructor
      · intro h
        exact absurd h (by simp)
      · rintro ⟨h1, h2⟩
        obtain rfl : x = q := by simpa using h1
        exact absurd hnd h2
    · simp only [processSample, if_neg hnd]
      constructor
      · intro h
        obtain rfl : x = q := by simpa using h
        exact ⟨rfl, hnd⟩
      · rintro ⟨h1, -⟩
        obtain rfl : x = q := by simpa using h1
        rfl

/-- C7: for every point list and batch-read outcome list,
`query_hazard_for_points` returns exactly one Hazard Query Result per input
point, in input order, each preserving the point's `lat` and `lng` and
carrying the hazard name; a result's value is non-null exactly when that
point's own read succeeded with a non-NaN number different from the no-data
sentinel — so a value is null exactly on a sentinel read, a NaN read, or a
per-point exception, and one point's failure leaves every other point's
result unchanged (each entry depends only on position `i`). -/
theorem query_hazard_per_point_results (pts : List SamplePoint)
    (ocs : List (Except Unit RawSample)) (nodata : Option ℚ) (hz : String) :
    (query_hazard_for_points pts ocs nodata hz).length = pts.length ∧
    ∀ i, i < pts.length →
      ∃ r pt, (query_hazard_for_points pts ocs nodata hz)[i]? = some r ∧
        pts[i]? = some pt ∧ r.lat = pt.lat ∧ r.lng = pt.lng ∧ r.hazard = hz ∧
        ∀ q : ℚ, r.value = some q ↔
          ocs[i]? = some (Except.ok (RawSample.val q)) ∧ nodata ≠ some q := by
  induction pts generalizing ocs with
  | nil =>
    refine ⟨rfl, ?_⟩
    intro i hi
    exact absurd hi (by simp)
  | cons pt pts ih =>
    refine ⟨?_, ?_⟩
    · simpa [query_hazard_for_points] using (ih ocs.tail).1
    · intro i hi
      match i with
      | 0 =>
        refine ⟨processSample nodata hz pt ocs.head?, pt, ?_, ?_,
          processSample_lat nodata hz pt ocs.head?,
          processSample_lng nodata hz pt ocs.head?,
          processSample_hazard nodata hz pt ocs.head?, ?_⟩
        · simp [query_hazard_for_points]
        · simp
        · intro q
          rw [processSample_value]
          cases ocs <;> simp
      | Nat.succ j =>
        obtain ⟨r, pt2, h1, h2, h3, h4, h5, h6⟩ :=
          (ih ocs.tail).2 j (by simpa using hi)
        refine ⟨r, pt2, ?_, ?_, h3, h4, h5, ?_⟩
        · simpa [query_hazard_for_points] using h1
        · simpa using h2
        · intro q
          rw [h6 q, tail_getElem_opt]

/-- C7 witness: a batch of one point whose individual lookup throws still
yields one result, preserving the coordinates, with a null value. -/
theorem query_hazard_per_point_results_witness :
    ∃ r pt,
      (query_hazard_for_points [⟨121, 14⟩] [Except.error ()] (some 5)
          "Flood")[0]? = some r ∧
        ([⟨121, 14⟩] : List SamplePoint)[0]? = some pt ∧ r.lat = pt.lat ∧
        r.lng = pt.lng ∧ r.hazard = "Flood" ∧
        ∀ q : ℚ, r.value = some q ↔
          ([Except.error ()] : List (Except Unit RawSample))[0]? =
              some (Except.ok (RawSample.val q)) ∧ (some 5 : Option ℚ) ≠ some q :=
  (query_hazard_per_point_results [⟨121, 14⟩] [Except.error ()] (some 5)
      "Flood").2 0 (by decide)

/-- Helper: reading back the key just written. -/
theorem getF_setF_same (p : PointRec) (k : String) (v : FVal) :
    getF (setF p k v) k = some v := by
  induction p with
  | nil => simp [setF, getF]
  | cons kv rest ih =>
    obtain ⟨k2, w⟩ := kv
    by_cases h : k2 = k
    · simp [setF, h, getF]
    · simp [setF, h, getF, ih]

/-- Helper: writing one key leaves every other key unchanged. -/
theorem getF_setF_ne (p : PointRec) (key k : String) (v : FVal)
    (h : k ≠ key) :
    getF (setF p key v) k = getF p k := by
  induction p with
  | nil =>
    simp only [setF, getF]
    rw [if_neg (Ne.symm h)]
  | cons kv rest ih =>
    obtain ⟨k2, w⟩ := kv
    simp only [setF]
    split
    · next h2 =>
        subst h2
        simp only [getF]
        rw [if_neg (Ne.symm h), if_neg (Ne.symm h)]
    · next h2 =>
        simp only [getF]
        by_cases h3 : k2 = k
        · rw [if_pos h3, if_pos h3]
        · rw [if_neg h3, if_neg h3, ih]

/-- C8 counterexample: `consolidate_points_to_clusters` does not leave its
input records unchanged — step 1 writes a `risk_profile` field into every
caller-held record: on a concrete input without that field, the post-call
record state differs from the input, and the records reachable from the
returned clusters (the same Python objects the caller passed in) all carry
the new field. -/
theorem consolidate_mutates_input_records :
    assignProfiles mutationExample ≠ mutationExample ∧
    mutationExample.all (fun p => (getF p "risk_profile") = none) = true ∧
    ((consolidate_points_to_clusters mutationExample 100).clusters.all
      (fun c => c.all_points.all (fun p => (getF p "risk_profile").isSome))) = true := by
  refine ⟨by decide, by decide, ?_⟩
  decide

/-- C8 (amended): the only change `consolidate_points_to_clusters` makes to
the caller's point records is upserting the `risk_profile` field (set to the
point's computed Risk Profile); every other field of every record keeps its
value, and the record count is unchanged.  `assignProfiles` is the post-call
state of the caller's list: its records are the same Python objects, mutated
in place by step 1; the sampling and query stages build fresh records and do
not mutate their inputs. -/
theorem consolidate_mutation_only_adds_risk_profile (pts : List PointRec) :
    (assignProfiles pts).length = pts.length ∧
    ∀ i, i < pts.length →
      ∃ p q, pts[i]? = some p ∧ (assignProfiles pts)[i]? = some q ∧
        getF q "risk_profile" = some (FVal.str (profileOf p)) ∧
        ∀ k, k ≠ "risk_profile" → getF q k = getF p k := by
  refine ⟨by simp [assignProfiles], ?_⟩
  intro i hi
  refine ⟨pts[i], setF pts[i] "risk_profile" (FVal.str (profileOf pts[i])),
    List.getElem?_eq_getElem hi, ?_,
    getF_setF_same pts[i] "risk_profile" (FVal.str (profileOf pts[i])),
    fun k hk => getF_setF_ne pts[i] "risk_profile" k (FVal.str (profileOf pts[i])) hk⟩
  rw [assignProfiles, List.getElem?_map, List.getElem?_eq_getElem hi]
  rfl

/-- C8 witness: on the concrete one-record input, the post-call record keeps
its `flood_risk` field and gains exactly the `risk_profile` field. -/
theorem consolidate_mutation_only_adds_risk_profile_witness :
    ∃ p q, mutationExample[0]? = some p ∧
      (assignProfiles mutationExample)[0]? = some q ∧
      getF q "risk_profile" = some (FVal.str (profileOf p)) ∧
      ∀ k, k ≠ "risk_profile" → getF q k = getF p k :=
  (consolidate_mutation_only_adds_risk_profile mutationExample).2 0 (by decide)

/-- Helper: adding a point to its profile group permutes to appending the
point to all grouped points. -/
theorem addToGroup_flatten_perm (gs : List (String × List PointRec))
    (prof : String) (p : PointRec) :
    (((addToGroup gs prof p).map Prod.snd).flatten).Perm
      ((gs.map Prod.snd).flatten ++ [p]) := by
  induction gs with
  | nil => simp [addToGroup]
  | cons g rest ih =>
    obtain ⟨k, ps⟩ := g
    simp only [addToGroup]
    split
    · simp only [List.map_cons, List.flatten_cons]
      rw [List.append_assoc, List.append_assoc]
      exact List.Perm.append_left ps List.perm_append_comm
    · simp only [List.map_cons, List.flatten_cons]
      rw [List.append_assoc]
      exact List.Perm.append_left ps ih

/-- Helper: foldl invariant for the grouped-points permutation. -/
theorem groupByProfile_flatten_perm_aux (pts : List PointRec) :
    ∀ gs, (((pts.foldl (fun gs p => addToGroup gs (profileKey p) p) gs).map
        Prod.snd).flatten).Perm ((gs.map Prod.snd).flatten ++ pts) := by
  induction pts with
  | nil => intro gs; simp
  | cons p pts ih =>
    intro gs
    simp only [List.foldl_cons]
    refine (ih (addToGroup gs (profileKey p) p)).trans ?_
    refine ((addToGroup_flatten_perm gs (profileKey p) p).append_right pts).trans ?_
    rw [List.append_assoc]
    exact List.Perm.refl _

/-- Helper: profile grouping is a partition — the grouped points are a
permutation of the input points. -/
theorem groupByProfile_flatten_perm (pts : List PointRec) :
    (((groupByProfile pts).map Prod.snd).flatten).Perm pts := by
  simpa using groupByProfile_flatten_perm_aux pts []

/-- Helper: inserting a point with its own key preserves the group-key
invariant. -/
theorem addToGroup_keyed (prof : String) (p : PointRec)
    (hp : profileKey p = prof) :
    ∀ gs, (∀ g ∈ gs, ∀ q ∈ g.2, profileKey q = g.1) →
      ∀ g ∈ addToGroup gs prof p, ∀ q ∈ g.2, profileKey q = g.1 := by
  intro gs
  induction gs with
  | nil =>
    intro hg g hgmem q hq
    simp only [addToGroup, List.mem_singleton] at hgmem
    subst hgmem
    obtain rfl : q = p := by simpa using hq
    exact hp
  | cons g0 rest ih =>
    obtain ⟨k, ps⟩ := g0
    intro hg g hgmem q hq
    simp only [addToGroup] at hgmem
    split at hgmem
    · next h =>
        rcases List.mem_cons.1 hgmem with h1 | h1
        · subst h1
          rcases List.mem_append.1 hq with h2 | h2
          · exact hg (k, ps) (List.mem_cons_self _ _) q h2
          · obtain rfl : q = p := by simpa using h2
            rw [hp, h]
        · exact hg g (List.mem_cons_of_mem _ h1) q hq
    · next h =>
        rcases List.mem_cons.1 hgmem with h1 | h1
        · subst h1
          exact hg (k, ps) (List.mem_cons_self _ _) q hq
        · exact ih (fun g2 hg2 => hg g2 (List.mem_cons_of_mem _ hg2)) g h1 q hq

/-- Helper: every member of every profile group has that group's key as its
stored risk profile. -/
theorem groupByProfile_keyed (pts : List PointRec) :
    ∀ g ∈ groupByProfile pts, ∀ q ∈ g.2, profileKey q = g.1 := by
  have main : ∀ (l : List PointRec) (gs),
      (∀ g ∈ gs, ∀ q ∈ g.2, profileKey q = g.1) →
      ∀ g ∈ l.foldl (fun gs p => addToGroup gs (profileKey p) p) gs,
        ∀ q ∈ g.2, profileKey q = g.1 := by
    intro l
    induction l with
    | nil => intro gs hg; simpa using hg
    | cons p rest ih =>
      intro gs hg
      simp only [List.foldl_cons]
      exact ih _ (addToGroup_keyed (profileKey p) p rfl gs hg)
  exact main pts [] (by simp)

/-- Helper: the key list after one grouping step. -/
theorem addToGroup_keys (gs : List (String × List PointRec)) (prof : String)
    (p : PointRec) :
    (addToGroup gs prof p).map Prod.fst =
      if prof ∈ gs.map Prod.fst then gs.map Prod.fst
      else gs.map Prod.fst ++ [prof] := by
  induction gs with
  | nil => simp [addToGroup]
  | cons g rest ih =>
    obtain ⟨k, ps⟩ := g
    simp only [addToGroup]
    split
    · next h =>
        subst h
        simp
    · next h =>
        simp only [List.map_cons, ih]
        by_cases h2 : prof ∈ rest.map Prod.fst
        · rw [if_pos h2, if_pos (by simp [h2])]
        · rw [if_neg h2,
            if_neg (by
              simp only [List.map_cons, List.mem_cons]
              rintro (h3 | h3)
              · exact h h3.symm
              · exact h2 h3),
            List.cons_append]

/-- Helper: group keys stay pairwise distinct under one grouping step. -/
theorem addToGroup_keys_nodup (gs : List (String × List PointRec))
    (prof : String) (p : PointRec) (h : (gs.map Prod.fst).Nodup) :
    ((addToGroup gs prof p).map Prod.fst).Nodup := by
  rw [addToGroup_keys]
  by_cases h2 : prof ∈ gs.map Prod.fst
  · rwa [if_pos h2]
  · rw [if_neg h2]
    simp [List.nodup_append, h, h2]

/-- Helper: the groups of `groupByProfile` have pairwise distinct keys. -/
theorem groupByProfile_keys_nodup (pts : List PointRec) :
    ((groupByProfile pts).map Prod.fst).Nodup := by
  have main : ∀ (l : List PointRec) (gs), ((gs.map Prod.fst)).Nodup →
      ((l.foldl (fun gs p => addToGroup gs (profileKey p) p) gs).map
        Prod.fst).Nodup := by
    intro l
    induction l with
    | nil => intro gs h; simpa using h
    | cons p rest ih =>
      intro gs h
      exact ih _ (addToGroup_keys_nodup gs _ p h)
  exact main pts [] (by simp)

/-- Helper: the BFS step returns a permutation of what it received. -/
theorem grow_perm {α : Type} (adj : α → α → Bool) :
    ∀ (fuel : ℕ) (comp rest : List α),
      ((grow adj fuel comp rest).1 ++ (grow adj fuel comp rest).2).Perm
        (comp ++ rest) := by
  intro fuel
  induction fuel with
  | zero => intro comp rest; exact List.Perm.refl _
  | succ fuel ih =>
    intro comp rest
    simp only [grow]
    split
    · exact List.Perm.refl _
    · refine (ih _ _).trans ?_
      rw [List.append_assoc]
      exact List.Perm.append_left comp (List.filter_append_perm _ rest)

/-- Helper: the BFS step never empties a nonempty component. -/
theorem grow_fst_ne_nil {α : Type} (adj : α → α → Bool) :
    ∀ (fuel : ℕ) (comp rest : List α), comp ≠ [] →
      (grow adj fuel comp rest).1 ≠ [] := by
  intro fuel
  induction fuel with
  | zero => intro comp rest h; exact h
  | succ fuel ih =>
    intro comp rest h
    simp only [grow]
    split
    · exact h
    · exact ih _ _ (fun hx => h (List.append_eq_nil.1 hx).1)

/-- Helper: with enough fuel, the connected components are a partition of
the input. -/
theorem componentsAux_flatten_perm {α : Type} (adj : α → α → Bool) :
    ∀ (fuel : ℕ) (l : List α), l.length ≤ fuel →
      ((componentsAux adj fuel l).flatten).Perm l := by
  intro fuel
  induction fuel with
  | zero =>
    intro l h
    obtain rfl : l = [] := List.length_eq_zero.1 (Nat.le_zero.1 h)
    exact List.Perm.refl _
  | succ fuel ih =>
    intro l h
    match l with
    | [] => exact List.Perm.refl _
    | p :: rest =>
      simp only [componentsAux, List.flatten_cons]
      have hperm := grow_perm adj rest.length [p] rest
      have hne := grow_fst_ne_nil adj rest.length [p] rest (by simp)
      have hlen : (grow adj rest.length [p] rest).1.length +
          (grow adj rest.length [p] rest).2.length = rest.length + 1 := by
        have h2 := hperm.length_eq
        simp only [List.length_append, List.length_cons, List.singleton_append] at h2
        omega
      have hfst : 1 ≤ (grow adj rest.length [p] rest).1.length := by
        cases hg : (grow adj rest.length [p] rest).1 with
        | nil => exact absurd hg hne
        | cons a as => simp [hg]
      simp only [List.length_cons] at h
      have h2 : (grow adj rest.length [p] rest).2.length ≤ fuel := by omega
      refine (List.Perm.append_left _ (ih _ h2)).trans ?_
      exact hperm

/-- Helper: the connected components are a partition of the input list. -/
theorem components_flatten_perm {α : Type} (adj : α → α → Bool) (l : List α) :
    ((components adj l).flatten).Perm l :=
  componentsAux_flatten_perm adj l.length l le_rfl

/-- Helper: basic facts about every cluster made from one profile group. -/
theorem clusterGroup_mem (eps : ℚ) (prof : String) (ps : List PointRec)
    (c : Cluster) (hc : c ∈ clusterGroup eps prof ps) :
    c.risk_profile = prof ∧ c.point_count = c.all_points.length ∧
      ∀ p ∈ c.all_points, p ∈ ps := by
  unfold clusterGroup at hc
  split at hc
  · next h =>
      obtain rfl := by simpa using hc
      refine ⟨rfl, h.symm, ?_⟩
      intro p hp
      exact hp
  · next h =>
      obtain ⟨cps, hcps, rfl⟩ := List.mem_map.1 hc
      refine ⟨rfl, rfl, ?_⟩
      intro p hp
      have hperm := components_flatten_perm (dbscanAdj eps) ps
      exact hperm.mem_iff.1 (List.mem_flatten.2 ⟨cps, hcps, hp⟩)

/-- Helper: mapping `all_points` over clusters built from component lists
recovers the component lists. -/
theorem map_all_points_of_mk (l : List (List PointRec))
    (f : List PointRec → Cluster) (hf : ∀ x, (f x).all_points = x) :
    (l.map f).map Cluster.all_points = l := by
  rw [List.map_map]
  have he : (Cluster.all_points ∘ f) = id := funext hf
  rw [he, List.map_id]

/-- Helper: the clusters of one profile group hold exactly the group's
points. -/
theorem clusterGroup_flatten_perm (eps : ℚ) (prof : String)
    (ps : List PointRec) :
    (((clusterGroup eps prof ps).map Cluster.all_points).flatten).Perm ps := by
  unfold clusterGroup
  split
  · next h =>
      simp only [List.map_cons, List.map_nil, List.flatten_cons,
        List.flatten_nil, List.append_nil]
      exact List.Perm.refl _
  · next h =>
      rw [map_all_points_of_mk _ _ (fun x => rfl)]
      exact components_flatten_perm (dbscanAdj eps) ps

/-- Helper: numbering the clusters changes no other field. -/
theorem withIds_mem (c : Cluster) : ∀ (n : ℕ) (cs : List Cluster),
    c ∈ withIds n cs →
      ∃ c0 ∈ cs, c.risk_profile = c0.risk_profile ∧
        c.point_count = c0.point_count ∧ c.all_points = c0.all_points := by
  intro n cs
  induction cs generalizing n with
  | nil => intro h; simp [withIds] at h
  | cons c0 rest ih =>
    intro h
    rcases List.mem_cons.1 h with h1 | h1
    · subst h1
      exact ⟨c0, List.mem_cons_self _ _, rfl, rfl, rfl⟩
    · obtain ⟨c1, hc1, hprops⟩ := ih (n + 1) h1
      exact ⟨c1, List.mem_cons_of_mem _ hc1, hprops⟩

/-- Helper: numbering the clusters preserves the member lists. -/
theorem withIds_map_all_points : ∀ (n : ℕ) (cs : List Cluster),
    (withIds n cs).map Cluster.all_points = cs.map Cluster.all_points := by
  intro n cs
  induction cs generalizing n with
  | nil => rfl
  | cons c0 rest ih =>
    simp only [withIds, List.map_cons]
    rw [ih]

/-- Helper: numbering the clusters preserves the point counts. -/
theorem withIds_map_point_count : ∀ (n : ℕ) (cs : List Cluster),
    (withIds n cs).map Cluster.point_count = cs.map Cluster.point_count := by
  intro n cs
  induction cs generalizing n with
  | nil => rfl
  | cons c0 rest ih =>
    simp only [withIds, List.map_cons]
    rw [ih]

/-- Helper: numbering the clusters commutes with profile filtering and the
id-independent projection. -/
theorem withIds_filter_data (prof : String) : ∀ (n : ℕ) (cs : List Cluster),
    ((withIds n cs).filter (fun c => c.risk_profile = prof)).map clusterData
      = (cs.filter (fun c => c.risk_profile = prof)).map clusterData := by
  intro n cs
  induction cs generalizing n with
  | nil => rfl
  | cons c0 rest ih =>
    simp only [withIds, List.filter_cons]
    by_cases h : c0.risk_profile = prof
    · rw [if_pos (by simpa using h), if_pos (by simpa using h)]
      simp only [List.map_cons]
      rw [ih]
      rfl
    · rw [if_neg (by simpa using h), if_neg (by simpa using h)]
      exact ih _

/-- Helper: the clusters of one run count and hold exactly the
profile-assigned input points. -/
theorem clustersOf_conservation (pts1 : List PointRec) (s : ℚ) :
    ((clustersOf pts1 s).map Cluster.point_count).sum = pts1.length ∧
    (((clustersOf pts1 s).map Cluster.all_points).flatten).Perm pts1 := by
  unfold clustersOf
  rw [withIds_map_point_count, withIds_map_all_points]
  have hperm : ((((groupByProfile pts1).flatMap fun g =>
      clusterGroup (consolidationEps s) g.1 g.2).map
        Cluster.all_points).flatten).Perm
      (((groupByProfile pts1).map Prod.snd).flatten) := by
    generalize groupByProfile pts1 = gs
    induction gs with
    | nil => exact List.Perm.refl _
    | cons g rest ih =>
      simp only [List.flatMap_cons, List.map_append, List.flatten_append,
        List.map_cons, List.flatten_cons]
      exact (clusterGroup_flatten_perm _ g.1 g.2).append ih
  have hperm2 := hperm.trans (groupByProfile_flatten_perm pts1)
  refine ⟨?_, hperm2⟩
  have hlen : ∀ c ∈ (groupByProfile pts1).flatMap
      (fun g => clusterGroup (consolidationEps s) g.1 g.2),
      c.point_count = c.all_points.length := by
    intro c hc
    obtain ⟨g, hg, hcg⟩ := List.mem_flatMap.1 hc
    exact (clusterGroup_mem _ _ _ c hcg).2.1
  rw [List.map_congr_left hlen]
  have hmm : (((groupByProfile pts1).flatMap fun g =>
      clusterGroup (consolidationEps s) g.1 g.2).map
        (fun c => c.all_points.length)).sum =
      ((((groupByProfile pts1).flatMap fun g =>
        clusterGroup (consolidationEps s) g.1 g.2).map
          Cluster.all_points).flatten).length := by
    rw [List.length_flatten, List.map_map]
    rfl
  rw [hmm, hperm2.length_eq]

/-- Helper: the shape of a successful consolidation run. -/
theorem consolidate_success_eq (pts : List PointRec) (s : ℚ) (hne : pts ≠ [])
    (hs : consolidateSuccess (assignProfiles pts) = true) :
    consolidate_points_to_clusters pts s =
      { clusters := clustersOf (assignProfiles pts) s,
        statistics := some (consolidateStats (assignProfiles pts)
          (clustersOf (assignProfiles pts) s)) } := by
  unfold consolidate_points_to_clusters
  rw [if_neg (by simpa [List.isEmpty_iff] using hne), if_pos hs]

/-- C1: for every consolidation input on which the run succeeds, the
statistics are present, `total_points` equals the number of input points,
the cluster `point_count`s sum to that same number, and the concatenation of
all cluster member lists is a permutation of the (profile-assigned) input
points — every input point belongs to exactly one cluster, counted with
multiplicity; with `min_samples = 1` no point is discarded as noise. -/
theorem consolidate_cluster_conservation (pts : List PointRec) (s : ℚ)
    (hne : pts ≠ []) (hs : consolidateSuccess (assignProfiles pts) = true) :
    ∃ st, (consolidate_points_to_clusters pts s).statistics = some st ∧
      st.total_points = pts.length ∧
      ((consolidate_points_to_clusters pts s).clusters.map
          Cluster.point_count).sum = pts.length ∧
      (((consolidate_points_to_clusters pts s).clusters.map
          Cluster.all_points).flatten).Perm (assignProfiles pts) := by
  rw [consolidate_success_eq pts s hne hs]
  refine ⟨_, rfl, ?_, ?_, ?_⟩
  · simp [consolidateStats, assignProfiles]
  · have h := (clustersOf_conservation (assignProfiles pts) s).1
    simpa [assignProfiles] using h
  · exact (clustersOf_conservation (assignProfiles pts) s).2

/-- C1 witness: the conservation statement instantiated at a concrete
one-point input. -/
theorem consolidate_cluster_conservation_witness :
    ∃ st, (consolidate_points_to_clusters plainExample 100).statistics = some st ∧
      st.total_points = plainExample.length ∧
      ((consolidate_points_to_clusters plainExample 100).clusters.map
          Cluster.point_count).sum = plainExample.length ∧
      (((consolidate_points_to_clusters plainExample 100).clusters.map
          Cluster.all_points).flatten).Perm (assignProfiles plainExample) :=
  consolidate_cluster_conservation plainExample 100 (by decide) (by decide)

/-- Helper: membership through the insertion step of the string sort. -/
theorem mem_insertSorted (s : String) (l : List String) (a : String) :
    a ∈ insertSorted s l ↔ a = s ∨ a ∈ l := by
  induction l with
  | nil => simp [insertSorted]
  | cons t ts ih =>
    simp only [insertSorted]
    split
    · simp [List.mem_cons]
    · simp only [List.mem_cons, ih]
      tauto

/-- Helper: sorting the key list preserves membership. -/
theorem mem_sortStrings (l : List String) (a : String) :
    a ∈ sortStrings l ↔ a ∈ l := by
  unfold sortStrings
  induction l with
  | nil => simp
  | cons s rest ih =>
    simp only [List.foldr_cons, mem_insertSorted, ih, List.mem_cons]

/-- Helper: writing the `risk_profile` field does not change the `*_risk`
bindings. -/
theorem riskPairs_setF_profile (p : PointRec) (v : FVal) :
    riskPairs (setF p "risk_profile" v) = riskPairs p := by
  have hf : strEndsWith "risk_profile" "_risk" = false := by decide
  induction p with
  | nil => simp [setF, riskPairs, List.filter_cons, hf]
  | cons kv rest ih =>
    obtain ⟨k2, w⟩ := kv
    simp only [setF]
    split
    · next h =>
        subst h
        simp [riskPairs, List.filter_cons, hf]
    · next h =>
        simp only [riskPairs, List.filter_cons] at ih ⊢
        by_cases h2 : strEndsWith k2 "_risk" = true
        · simp only [h2, if_true, ih]
        · simp only [h2, if_false, ih]

/-- Helper: writing the `risk_profile` field does not change the computed
Risk Profile string. -/
theorem profileOf_setF_profile (p : PointRec) (v : FVal) :
    profileOf (setF p "risk_profile" v) = profileOf p := by
  unfold profileOf
  have hkeys : riskKeys (setF p "risk_profile" v) = riskKeys p := by
    unfold riskKeys
    rw [riskPairs_setF_profile]
  rw [hkeys]
  congr 1
  apply List.map_congr_left
  intro k hk
  have hk2 : k ∈ riskKeys p := (mem_sortStrings _ _).1 hk
  have hk3 : strEndsWith k "_risk" = true := by
    unfold riskKeys riskPairs at hk2
    obtain ⟨kv, hkv, rfl⟩ := List.mem_map.1 hk2
    exact (List.mem_filter.1 hkv).2
  have hne : k ≠ "risk_profile" := by
    intro e
    rw [e] at hk3
    exact absurd hk3 (by decide)
  rw [getF_setF_ne p "risk_profile" k v hne]

/-- Helper: after step 1, every record's stored grouping key equals its
computed Risk Profile string. -/
theorem assignProfiles_profileKey (pts : List PointRec) :
    ∀ p ∈ assignProfiles pts, profileKey p = profileOf p := by
  intro p hp
  obtain ⟨p0, hp0, rfl⟩ := List.mem_map.1 hp
  have h1 : profileKey (setF p0 "risk_profile" (FVal.str (profileOf p0)))
      = profileOf p0 := by
    unfold profileKey
    rw [getF_setF_same]
  rw [h1, profileOf_setF_profile]

/-- Helper: every member of every produced cluster carries the cluster's
profile as its stored grouping key. -/
theorem clustersOf_members_profile (pts1 : List PointRec) (s : ℚ) :
    ∀ c ∈ clustersOf pts1 s, ∀ p ∈ c.all_points,
      profileKey p = c.risk_profile := by
  intro c hc p hp
  unfold clustersOf at hc
  obtain ⟨c0, hc0, hprof, hpc, hap⟩ := withIds_mem c _ _ hc
  rw [hap] at hp
  obtain ⟨g, hg, hcg⟩ := List.mem_flatMap.1 hc0
  obtain ⟨hrp, -, hsub⟩ := clusterGroup_mem _ _ _ c0 hcg
  rw [hprof, hrp]
  exact groupByProfile_keyed pts1 g hg p (hsub p hp)

/-- Helper: with pairwise-distinct group keys, filtering all produced
clusters on one group's key recovers exactly that group's clusters. -/
theorem flatMap_filter_singleton (eps : ℚ) :
    ∀ (gs : List (String × List PointRec)), (gs.map Prod.fst).Nodup →
      ∀ prof ps, (prof, ps) ∈ gs →
        ((gs.flatMap fun g => clusterGroup eps g.1 g.2).filter
            (fun c => c.risk_profile = prof)) = clusterGroup eps prof ps := by
  intro gs
  induction gs with
  | nil =>
    intro h prof ps hmem
    simp at hmem
  | cons g rest ih =>
    intro hnd prof ps hmem
    simp only [List.map_cons, List.nodup_cons] at hnd
    simp only [List.flatMap_cons, List.filter_append]
    rcases List.mem_cons.1 hmem with h1 | h1
    · obtain rfl := h1.symm
      have hall : (clusterGroup eps prof ps).filter
          (fun c => c.risk_profile = prof) = clusterGroup eps prof ps := by
        apply List.filter_eq_self.2
        intro c hc
        simpa using (clusterGroup_mem eps prof ps c hc).1
      have hnil : ((rest.flatMap fun g => clusterGroup eps g.1 g.2).filter
          (fun c => c.risk_profile = prof)) = [] := by
        apply List.filter_eq_nil_iff.2
        intro c hc
        obtain ⟨g2, hg2, hcg2⟩ := List.mem_flatMap.1 hc
        have hprof := (clusterGroup_mem eps g2.1 g2.2 c hcg2).1
        have hne : g2.1 ≠ prof := by
          intro e
          have hmm : g2.1 ∈ rest.map Prod.fst :=
            List.mem_map_of_mem Prod.fst hg2
          rw [e] at hmm
          exact hnd.1 hmm
        simp [hprof, hne]
      rw [hall, hnil, List.append_nil]
    · have hg1 : g.1 ≠ prof := by
        intro e
        have : prof ∈ rest.map Prod.fst := by
          have := List.mem_map_of_mem Prod.fst h1
          simpa using this
        exact hnd.1 (e ▸ this)
      have hfil : ((clusterGroup eps g.1 g.2).filter
          (fun c => c.risk_profile = prof)) = [] := by
        apply List.filter_eq_nil_iff.2
        intro c hc
        have hprof := (clusterGroup_mem eps g.1 g.2 c hc).1
        simp [hprof, hg1]
      rw [hfil, List.nil_append]
      exact ih hnd.2 prof ps h1

/-- C6: in every successful Consolidation Result, every member point of
every cluster has a computed Risk Profile string — built from its `*_risk`
fields sorted by field name — equal to the cluster's `risk_profile`; and a
profile group holding exactly one point yields exactly one cluster with that
profile, with `point_count = 1`, the point itself as representative, and the
point as only member. -/
theorem consolidate_profile_homogeneity_and_singletons (pts : List PointRec)
    (s : ℚ) (hne : pts ≠ [])
    (hs : consolidateSuccess (assignProfiles pts) = true) :
    (∀ c ∈ (consolidate_points_to_clusters pts s).clusters,
        ∀ p ∈ c.all_points, profileOf p = c.risk_profile) ∧
    (∀ prof p, (prof, [p]) ∈ groupByProfile (assignProfiles pts) →
        (((consolidate_points_to_clusters pts s).clusters.filter
            (fun c => c.risk_profile = prof)).map clusterData)
          = [(1, latOf p, lngOf p, [p])]) := by
  rw [consolidate_success_eq pts s hne hs]
  constructor
  · intro c hc p hp
    have h1 := clustersOf_members_profile (assignProfiles pts) s c hc p hp
    have hmem : p ∈ assignProfiles pts := by
      have hperm := (clustersOf_conservation (assignProfiles pts) s).2
      refine hperm.mem_iff.1 ?_
      exact List.mem_flatten.2
        ⟨c.all_points, List.mem_map_of_mem Cluster.all_points hc, hp⟩
    rw [← assignProfiles_profileKey pts p hmem]
    exact h1
  · intro prof p hmem
    show ((clustersOf (assignProfiles pts) s).filter
        (fun c => c.risk_profile = prof)).map clusterData = _
    unfold clustersOf
    rw [withIds_filter_data,
      flatMap_filter_singleton (consolidationEps s)
        (groupByProfile (assignProfiles pts))
        (groupByProfile_keys_nodup (assignProfiles pts)) prof [p] hmem]
    rfl

/-- C6 witness: homogeneity and singleton handling instantiated at a
concrete one-point input. -/
theorem consolidate_profile_homogeneity_and_singletons_witness :
    (∀ c ∈ (consolidate_points_to_clusters singletonExample 100).clusters,
        ∀ p ∈ c.all_points, profileOf p = c.risk_profile) ∧
    (∀ prof p, (prof, [p]) ∈ groupByProfile (assignProfiles singletonExample) →
        (((consolidate_points_to_clusters singletonExample 100).clusters.filter
            (fun c => c.risk_profile = prof)).map clusterData)
          = [(1, latOf p, lngOf p, [p])]) :=
  consolidate_profile_homogeneity_and_singletons singletonExample 100
    (by decide) (by decide)

/-- Helper: the first risk key is a `*_risk` key. -/
theorem firstRiskKey_ends (p : PointRec) (k : String)
    (h : firstRiskKey p = some k) : strEndsWith k "_risk" = true := by
  unfold firstRiskKey at h
  cases hf : p.find? (fun kv => strEndsWith kv.1 "_risk") with
  | none =>
    rw [hf] at h
    exact absurd h (by simp)
  | some kv =>
    rw [hf] at h
    obtain rfl : kv.1 = k := by simpa using h
    have h2 := List.find?_some hf
    simpa using h2

/-- Helper: counting a tier among the extracted first-hazard values is
counting the points whose first-hazard risk field holds that tier. -/
theorem count_riskValues (pts1 : List PointRec) (k level : String) :
    (riskValues pts1 k).count (FVal.str level) =
      pts1.countP (fun p => getF p k = some (FVal.str level)) := by
  unfold riskValues
  induction pts1 with
  | nil => rfl
  | cons p rest ih =>
    simp only [List.map_cons, List.count_cons, List.countP_cons, ih]
    congr 1
    rcases hg : getF p k with - | v
    · simp [hg]
    · simp [hg, beq_iff_eq]

/-- Helper: step 1 does not change any `*_risk` field, so the extracted
value list over the mutated records equals the one over the original
records. -/
theorem riskValues_assignProfiles (pts : List PointRec) (k : String)
    (hk : strEndsWith k "_risk" = true) :
    riskValues (assignProfiles pts) k = riskValues pts k := by
  unfold riskValues assignProfiles
  rw [List.map_map]
  apply List.map_congr_left
  intro p hp
  have hne : k ≠ "risk_profile" := by
    intro e
    rw [e] at hk
    exact absurd hk (by decide)
  simp only [Function.comp_apply]
  rw [getF_setF_ne p "risk_profile" k _ hne]

/-- Helper: the statistics of a run whose first point has a risk key. -/
theorem consolidateStats_dist_of_key (pts1 : List PointRec)
    (cl : List Cluster) (k : String)
    (hk : firstRiskKey (pts1.headD []) = some k) :
    (consolidateStats pts1 cl).risk_distribution =
      buildDistribution (riskValues pts1 k) pts1.length := by
  unfold consolidateStats
  rw [hk]

/-- Helper: looking up one of the four tiers in the built distribution. -/
theorem distLookup_buildDistribution (values : List FVal) (total : ℕ)
    (level : String) (hlevel : level ∈ distLevels) :
    distLookup level (buildDistribution values total) =
      some { count := values.count (FVal.str level),
             percentage := pyRound1
               (if 0 < total then
                 (values.count (FVal.str level) : ℚ) / (total : ℚ) * 100
                else 0) } := by
  fin_cases hlevel <;> rfl

/-- Helper: the built distribution has no `No Data` entry. -/
theorem distLookup_buildDistribution_no_data (values : List FVal)
    (total : ℕ) :
    distLookup "No Data" (buildDistribution values total) = none := rfl

/-- C10 (amended): for every successful non-empty consolidation run whose
first point carries a `*_risk` key `k`, the risk distribution has an entry
for exactly the four ordinal tiers Low, Medium, High, Very High of that
first hazard — each holding that tier's count among all input points and its
percentage of `total_points` rounded to one decimal — and no entry for
`No Data`, although `No Data` points still count toward `total_points`. -/
theorem risk_distribution_four_tiers (pts : List PointRec) (s : ℚ)
    (k : String) (hne : pts ≠ [])
    (hs : consolidateSuccess (assignProfiles pts) = true)
    (hk : firstRiskKey ((assignProfiles pts).headD []) = some k) :
    ∃ st, (consolidate_points_to_clusters pts s).statistics = some st ∧
      st.total_points = pts.length ∧
      (∀ level ∈ distLevels,
        distLookup level st.risk_distribution =
          some { count := pts.countP (fun p => getF p k = some (FVal.str level)),
                 percentage := pyRound1
                   ((pts.countP (fun p => getF p k = some (FVal.str level)) : ℚ)
                     / (pts.length : ℚ) * 100) }) ∧
      distLookup "No Data" st.risk_distribution = none := by
  rw [consolidate_success_eq pts s hne hs]
  have hlen : (assignProfiles pts).length = pts.length := by
    simp [assignProfiles]
  refine ⟨_, rfl, by simpa [consolidateStats] using hlen, ?_, ?_⟩
  · intro level hlevel
    rw [consolidateStats_dist_of_key _ _ k hk,
      distLookup_buildDistribution _ _ level hlevel,
      riskValues_assignProfiles pts k (firstRiskKey_ends _ k hk),
      count_riskValues, hlen,
      if_pos (List.length_pos.2 hne)]
  · rw [consolidateStats_dist_of_key _ _ k hk]
    exact distLookup_buildDistribution_no_data _ _

/-- C10 counterexample: on a successful run whose single point is classified
`No Data` for its first hazard, the returned risk distribution has entries
for exactly the four ordinal tiers and none for `No Data`, although the
claim requires a `No Data` entry with count 1. -/
theorem risk_distribution_omits_no_data :
    getF (noDataExample.headD []) "flood_risk" = some (FVal.str "No Data") ∧
    ((consolidate_points_to_clusters noDataExample 100).statistics.map
        (fun st => st.risk_distribution.map Prod.fst)) =
      some ["Low", "Medium", "High", "Very High"] ∧
    ((consolidate_points_to_clusters noDataExample 100).statistics.map
        (fun st => distLookup "No Data" st.risk_distribution)) = some none := by
  refine ⟨by decide, rfl, rfl⟩

/-- C10 witness: the four-tier distribution statement instantiated at a
concrete one-point input. -/
theorem risk_distribution_four_tiers_witness :
    ∃ st, (consolidate_points_to_clusters lowRiskExample 100).statistics
        = some st ∧
      st.total_points = lowRiskExample.length ∧
      (∀ level ∈ distLevels,
        distLookup level st.risk_distribution =
          some { count := lowRiskExample.countP
                   (fun p => getF p "flood_risk" = some (FVal.str level)),
                 percentage := pyRound1
                   ((lowRiskExample.countP
                       (fun p => getF p "flood_risk" = some (FVal.str level)) : ℚ)
                     / (lowRiskExample.length : ℚ) * 100) }) ∧
      distLookup "No Data" st.risk_distribution = none :=
  risk_distribution_four_tiers lowRiskExample 100 "flood_risk" (by decide)
    (by decide) (by decide)
